import Mathlib

/-!
Verification development for the worker-proxy repository.

The embedding models the two protocol endpoints:
* the callee endpoint (`hookService` / `WorkerServiceClass` in
  `src/worker/index.ts`), and
* the caller endpoint (`ServiceProxyClass` in the proxy source file),
over a shallow model of JavaScript values (`JSVal`).  Function-valued
JavaScript members are represented as `JSVal.fn id`, with behaviour supplied
by an environment `FunEnv` mapping the id to an argument-list-to-outcome
function; synchronous throws and asynchronous rejections are both normalized
into the `Except` error branch, exactly as `Promise.try` + `.then`/`.catch`
normalize them in the source.
-/

namespace WorkerProxy

/-- Shallow model of a JavaScript value.  `obj` carries its own properties
and its prototype (`Object.getPrototypeOf`).  Numbers are rationals (NaN and
the infinities are not modelled; no claim depends on them).  `fn id` is a
function value identified by `id`, whose behaviour lives in a `FunEnv`. -/
inductive JSVal where
  | undefined : JSVal
  | null : JSVal
  | bool (b : Bool) : JSVal
  | num (q : ℚ) : JSVal
  | str (s : String) : JSVal
  | arr (elems : List JSVal) : JSVal
  | obj (fields : List (String × JSVal)) (proto : JSVal) : JSVal
  | fn (id : Nat) : JSVal

/-- JavaScript truthiness (`!!val`). -/
def truthy : JSVal → Bool
  | .undefined => false
  | .null => false
  | .bool b => b
  | .num q => q != 0
  | .str s => s != ""
  | .arr _ => true
  | .obj _ _ => true
  | .fn _ => true

/-- `isObject` from the source: `!!val && (typeof val === 'object')`.
Arrays are objects in JavaScript; `null` is excluded by the truthiness
check; functions have `typeof 'function'` and are excluded. -/
def isObject : JSVal → Bool
  | .arr _ => true
  | .obj _ _ => true
  | _ => false

/-- `isFunction` from the source: `typeof val === 'function'`. -/
def isFunction : JSVal → Bool
  | .fn _ => true
  | _ => false

/-- `isString` from the source: `typeof val === 'string'`. -/
def isString : JSVal → Bool
  | .str _ => true
  | _ => false

/-- `isNumber` from the source: `typeof val === 'number'`. -/
def isNumber : JSVal → Bool
  | .num _ => true
  | _ => false

/-- `Object.getPrototypeOf`, restricted to plain objects (the only values
the source walks prototypes of). -/
def protoOf : JSVal → JSVal
  | .obj _ p => p
  | _ => .null

/-- Property read `v[k]`: own properties first, then the prototype chain;
arrays expose `length` and their indices.  Host members of
`Object.prototype` and `Array.prototype` are elided (reads of them yield
`undefined` here); no claim depends on their values. -/
def getField : JSVal → String → JSVal
  | .obj fields proto, k =>
    match fields.lookup k with
    | some v => v
    | none => getField proto k
  | .arr l, k =>
    if k = "length" then .num (l.length : ℚ)
    else
      match k.toNat? with
      | some i => (l.get? i).getD .undefined
      | none => .undefined
  | _, _ => .undefined

/-- JavaScript property-key conversion (`ToPropertyKey`) for the values the
model dispatches on.  The numeric rendering is approximate (rationals print
as fractions), which is harmless: no modelled member name collides with a
number's string form. -/
def jsKey : JSVal → String
  | .str s => s
  | .num q => toString q
  | .bool b => toString b
  | .undefined => "undefined"
  | .null => "null"
  | _ => ""

/-- `Number.isSafeInteger`: an integer of magnitude at most `2 ^ 53 - 1`. -/
def isSafeInteger : JSVal → Bool
  | .num q => q.den == 1 && decide (q.num.natAbs ≤ 2 ^ 53 - 1)
  | _ => false

/-- `isArrayLike` from the source: a non-null object with a numeric
`length` property. -/
def isArrayLike (v : JSVal) : Bool :=
  isObject v && isNumber (getField v "length")

/-- Argument-list extraction used by `Function.prototype.apply`: arrays pass
through; array-like objects are read index by index up to `length`. -/
def toArgs : JSVal → List JSVal
  | .arr l => l
  | .obj fields proto =>
    match getField (.obj fields proto) "length" with
    | .num q =>
      if q.den == 1 && decide (0 ≤ q.num) then
        (List.range q.num.toNat).map (fun i => getField (.obj fields proto) (toString i))
      else []
    | _ => []
  | _ => []

/-- The string payload of a (validated) string value. -/
def strOf : JSVal → String
  | .str s => s
  | _ => ""

/-! Callee endpoint (`src/worker/index.ts`). -/

/-- Serialized error descriptor: the `{name, message, stack}` triple the
callee endpoint sends in reject responses. -/
structure ErrInfo where
  name : String
  message : String
  stack : String
deriving DecidableEq

/-- The `TypeError('invalid argument')` raised by `assert` on validation
failure. -/
def invalidArgumentError : ErrInfo := ⟨"TypeError", "invalid argument", ""⟩

/-- The `Error('unknown method')` produced by `WorkerServiceClass.unknown`. -/
def unknownMethodError : ErrInfo := ⟨"Error", "unknown method", ""⟩

/-- Model artifact: returned when the recursion fuel of the dispatcher runs
out (only reachable through self-referential `onmessage` /
`callTargetMethod` requests, which no claim exercises). -/
def fuelError : ErrInfo := ⟨"ModelError", "recursion fuel exhausted", ""⟩

/-- The wire shape of `{name: err.name, message: err.message, stack:
err.stack}` for a caught `ErrInfo`. -/
def errObj (e : ErrInfo) : JSVal :=
  .obj [("name", .str e.name), ("message", .str e.message), ("stack", .str e.stack)] .null

/-- Behaviour environment for `JSVal.fn` function values: maps a function id
and an argument list to the normalized asynchronous outcome (`.ok` =
return/resolution value, `.error` = thrown/rejected error). -/
def FunEnv : Type := Nat → List JSVal → Except ErrInfo JSVal

/-- A message posted with `worker.postMessage` by the callee endpoint:
`{uuid, method, args}` where `method` is the literal `'resolve'` or
`'reject'` (the source always posts these two shapes). -/
structure Msg where
  uuid : JSVal
  method : String
  args : List JSVal

/-- State of a hooked `WorkerServiceClass` instance: the four instance
properties set by its constructor. -/
structure WorkerService where
  worker : JSVal
  service : JSVal
  onterminate : JSVal
  methods : List String

/-- `isValidWorkerServiceMethodCall` from the source:
`isObject(val) && (!val.target || isString(val.target)) &&
isString(val.method) && (!val.args || isArrayLike(val.args))`. -/
def isValidWorkerServiceMethodCall (v : JSVal) : Bool :=
  isObject v && (!truthy (getField v "target") || isString (getField v "target")) &&
  isString (getField v "method") && (!truthy (getField v "args") || isArrayLike (getField v "args"))

/-- Instance-property read `this[k]` on a `WorkerServiceClass` instance,
for the data members.  Prototype-method members (which are functions, hence
not objects) map to `undefined`; this function only feeds the
`isObject(this[spec.target])` test of `callTargetMethod`, where a function
and `undefined` select the same branch. -/
def instanceGet (ws : WorkerService) (k : String) : JSVal :=
  if k = "worker" then ws.worker
  else if k = "service" then ws.service
  else if k = "onterminate" then ws.onterminate
  else if k = "methods" then .arr (ws.methods.map .str)
  else .undefined

/-- Callable members inherited from `Object.prototype` by every plain
object, including the resolver records and the class instance.  Invoking
them settles nothing; the model returns `undefined` for their values
(coarse, and irrelevant to every claim). -/
def objectProtoFnNames : List String :=
  ["hasOwnProperty", "isPrototypeOf", "propertyIsEnumerable",
   "toLocaleString", "toString", "valueOf"]

/-- The response message the callee endpoint's `onmessage` promise chain
posts for a settled outcome: `resolve(uuid, res)` or `reject(uuid, err)`
from the source. -/
def outMsg (uuid : JSVal) : Except ErrInfo JSVal → Msg
  | .ok v => ⟨uuid, "resolve", [v]⟩
  | .error e => ⟨uuid, "reject", [errObj e]⟩

/-- Invocation of a function value through the environment.  The non-`fn`
branch models the `TypeError` JavaScript raises when applying a
non-function; it is unreachable from states built by `hookService`. -/
def invokeEnv (env : FunEnv) (f : JSVal) (args : List JSVal) :
    List Msg × Except ErrInfo JSVal :=
  match f with
  | .fn i => ([], env i args)
  | _ => ([], .error ⟨"TypeError", "not a function", ""⟩)

/-- `WorkerServiceClass.callTargetMethod`, with the invocation of the
resolved method inlined.  Returns the messages posted synchronously during
dispatch (from direct requests to the internal `resolve`/`reject`/
`onmessage` members) together with the normalized outcome the surrounding
promise chain will report.  `fuel` bounds the self-referential internal
dispatch (`onmessage`, `callTargetMethod`); it is a model artifact and is
consumed once per dispatch. -/
def callTargetMethod (env : FunEnv) (ws : WorkerService) :
    Nat → JSVal → List Msg × Except ErrInfo JSVal
  | 0, _ => ([], .error fuelError)
  | fuel + 1, data =>
    if !isSafeInteger (getField data "uuid") then ([], .error invalidArgumentError)
    else if !isValidWorkerServiceMethodCall data then ([], .error invalidArgumentError)
    else
      let tkey := jsKey (getField data "target")
      let m := strOf (getField data "method")
      let args := toArgs (getField data "args")
      if isObject (instanceGet ws tkey) then
        if tkey = "service" then
          -- target === this.service: method must be in the exposed set
          if ws.methods.contains m then invokeEnv env (getField ws.service m) args
          else ([], .error unknownMethodError)
        else
          -- another object-valued instance member (worker, methods)
          if isFunction (getField (instanceGet ws tkey) m) then
            invokeEnv env (getField (instanceGet ws tkey) m) args
          else ([], .error unknownMethodError)
      else
        -- target is `this`: any callable member of the instance qualifies
        if m = "getServiceMethods" then ([], .ok (.arr (ws.methods.map .str)))
        else if m = "resolve" then
          ([⟨args.getD 0 .undefined, "resolve", [args.getD 1 .undefined]⟩], .ok .undefined)
        else if m = "reject" then
          ([⟨args.getD 0 .undefined, "reject",
             [.obj [("name", getField (args.getD 1 .undefined) "name"),
                    ("message", getField (args.getD 1 .undefined) "message"),
                    ("stack", getField (args.getD 1 .undefined) "stack")] .null]⟩],
           .ok .undefined)
        else if m = "onterminate" then
          if isFunction ws.onterminate then invokeEnv env ws.onterminate args
          else ([], .error unknownMethodError)
        else if m = "onmessage" then
          let d := getField (args.getD 0 .undefined) "data"
          let r := callTargetMethod env ws fuel d
          (r.1 ++ [outMsg (getField d "uuid") r.2], .ok .undefined)
        else if m = "callTargetMethod" then
          callTargetMethod env ws fuel (args.getD 0 .undefined)
        else if m = "constructor" then
          -- ES5 constructor invoked as a plain function; its re-hooking
          -- side effects are outside the model and outside every claim
          ([], .ok .undefined)
        else if objectProtoFnNames.contains m then ([], .ok .undefined)
        else ([], .error unknownMethodError)

/-- `WorkerServiceClass.onmessage`: runs `callTargetMethod` under
`Promise.try` and posts exactly one trailing response — `resolve` with the
outcome value, or `reject` with the serialized error — carrying
`event.data.uuid` unchanged. -/
def workerOnmessage (env : FunEnv) (ws : WorkerService) (fuel : Nat) (data : JSVal) :
    List Msg :=
  let r := callTargetMethod env ws fuel data
  r.1 ++ [outMsg (getField data "uuid") r.2]

/-- `isObjectPrototype` from the source: a non-null object whose prototype
is not an object (`Object.prototype` has prototype `null`). -/
def isObjectPrototype (v : JSVal) : Bool :=
  isObject v && !isObject (protoOf v)

/-- The host `TypeError` thrown by `Object.getOwnPropertyNames(null)`
(and `(undefined)`); the message is host-dependent, this is V8's. -/
def nullProtoEnumError : ErrInfo :=
  ⟨"TypeError", "Cannot convert undefined or null to object", ""⟩

/-- `getPropertyNames` from the source, with the accumulator object made
explicit: collects own property names other than `constructor` along the
prototype chain, first occurrence kept, stopping before the universal base
object (`Object.prototype`).  When the chain reaches `null` directly (a
service built on `Object.create(null)`), `isObjectPrototype(null)` is false
so the source recurses into `null` and `Object.getOwnPropertyNames(null)`
throws a `TypeError`, modelled here as the `.error` branch.  On values
`Object.getOwnPropertyNames` coerces without throwing (non-`null`
primitives, and arrays whose host prototype members are elided) the
accumulated names are returned. -/
def getPropertyNamesAux (acc : List String) : JSVal → Except ErrInfo (List String)
  | .obj fields proto =>
    if isObjectPrototype proto then
      .ok (((fields.map Prod.fst).filter (fun k => k ≠ "constructor")).foldl
        (fun a k => if a.contains k then a else a ++ [k]) acc)
    else
      getPropertyNamesAux
        (((fields.map Prod.fst).filter (fun k => k ≠ "constructor")).foldl
          (fun a k => if a.contains k then a else a ++ [k]) acc) proto
  | .null => .error nullProtoEnumError
  | .undefined => .error nullProtoEnumError
  | _ => .ok acc

/-- Top-level `getPropertyNames(obj)` call (empty accumulator). -/
def getPropertyNames (v : JSVal) : Except ErrInfo (List String) :=
  getPropertyNamesAux [] v

/-- A prototype chain along which the source's `getPropertyNames`
completes: it reaches an `Object.prototype`-shaped terminus (or a value
the host coerces without throwing) rather than `null` directly. -/
def protoChainReachesBase : JSVal → Bool
  | .obj _ proto =>
    if isObjectPrototype proto then true else protoChainReachesBase proto
  | .null => false
  | .undefined => false
  | _ => true

/-- `isValidMethodsOption` from the source:
`!val || Array.isArray(val) && val.every(isString)`. -/
def isValidMethodsOption (v : JSVal) : Bool :=
  !truthy v ||
    (match v with
     | .arr l => l.all isString
     | _ => false)

/-- `isWorkerGlobalScope` from the source: an object with a callable
`postMessage` member. -/
def isWorkerGlobalScope (v : JSVal) : Bool :=
  isObject v && isFunction (getField v "postMessage")

/-- `isValidServiceBinderSpec` from the source. -/
def isValidServiceBinderSpec (v : JSVal) : Bool :=
  isObject v && isWorkerGlobalScope (getField v "worker") &&
  isObject (getField v "service") &&
  (!truthy (getField v "onterminate") || isFunction (getField v "onterminate")) &&
  isValidMethodsOption (getField v "methods")

/-- `spec.methods.indexOf(val) >= 0` for a string `val`: strict equality
against each element, so only string elements can match. -/
def allowContains (allow : JSVal) (m : String) : Bool :=
  match allow with
  | .arr l => l.any (fun x => match x with | .str s => s == m | _ => false)
  | _ => false

/-- `WorkerServiceClass.hookService`: validates the spec (throwing the
`invalid argument` `TypeError`, modelled as `.error`), computes the exposed
method set — a throw escaping `getPropertyNames` (null-terminated chain)
propagates out before any construction — and constructs the hooked
instance: `.ok ws` stands for the constructor having installed `ws`'s
`onmessage` handler on the channel. -/
def hookService (spec : JSVal) : Except ErrInfo WorkerService :=
  if !isValidServiceBinderSpec spec then .error invalidArgumentError
  else
    match getPropertyNames (getField spec "service") with
    | .error e => .error e
    | .ok names =>
      .ok ⟨getField spec "worker", getField spec "service", getField spec "onterminate",
        (names.filter
          (fun m => isFunction (getField (getField spec "service") m))).filter
          (fun m => !truthy (getField spec "methods") ||
            allowContains (getField spec "methods") m)⟩

/-! Caller endpoint (`ServiceProxyClass`). -/

/-- Modelled from the spec: the Identifier Allocator (the indexed queue of
`./lib/indexed-queue`, whose implementation file is not under `src/`).
Per spec §4.1 it stores records under freshly chosen integer keys unique
among the currently stored records, with O(1) `push`/`has`/`pop`; keys are
modelled as a monotonically increasing counter (explicitly allowed by the
spec).  A record is the settlement pair of one pending call, identified
here by an abstract token naming the call's promise. -/
structure IndexedQueue where
  next : Nat
  items : List (Nat × Nat)
deriving DecidableEq

/-- Modelled from the spec: `push(record) -> uuid` — stores the record
under a fresh key and returns the key. -/
def IndexedQueue.push (q : IndexedQueue) (tok : Nat) : Nat × IndexedQueue :=
  (q.next, ⟨q.next + 1, q.items ++ [(q.next, tok)]⟩)

/-- Modelled from the spec: `has(uuid)` — a record is currently stored
under `uuid`. -/
def IndexedQueue.hasKey (q : IndexedQueue) (u : Nat) : Bool :=
  (q.items.find? (fun p => p.1 == u)).isSome

/-- Modelled from the spec: the record stored under `uuid`, if any. -/
def IndexedQueue.lookupKey (q : IndexedQueue) (u : Nat) : Option Nat :=
  (q.items.find? (fun p => p.1 == u)).map Prod.snd

/-- Modelled from the spec: the queue after `pop(uuid)` removes the record
stored under `uuid` (a no-op on an absent key, which the source only
reaches from the timeout handler's unconditional `pop`). -/
def IndexedQueue.popKey (q : IndexedQueue) (u : Nat) : IndexedQueue :=
  ⟨q.next, q.items.filter (fun p => p.1 != u)⟩

/-- Allocator well-formedness: every stored key was handed out by a past
`push`, i.e. is below the counter.  Holds for every state reachable from
the empty queue. -/
def IndexedQueue.wf (q : IndexedQueue) : Prop :=
  ∀ p ∈ q.items, p.1 < q.next

/-- Inbound data of a response message as the caller endpoint reads it:
the `uuid`, `method` and `args` properties of `event.data`, each an
arbitrary value (late, malformed or spoofed responses included). -/
structure RespData where
  uuid : JSVal
  method : JSVal
  args : JSVal

/-- Settlement of one pending call's promise: fulfilled with a value or
failed with the value passed to `reject`. -/
inductive SettleAct where
  | fulfill (v : JSVal) : SettleAct
  | fail (e : JSVal) : SettleAct

/-- The allocator key denoted by a message's `uuid` value: keys are the
non-negative integers the allocator hands out, so any other value is
stored under no record (`has` is false for it). -/
def keyOf : JSVal → Option Nat
  | .num q => if q.den == 1 && decide (0 ≤ q.num) then some q.num.toNat else none
  | _ => none

/-- View of a posted callee response as inbound caller data. -/
def Msg.toResp (m : Msg) : RespData := ⟨m.uuid, .str m.method, .arr m.args⟩

/-- `ServiceProxyClass.onmessage`, the response matcher: ignore the message
if no record is stored under its `uuid`; otherwise pop the record and, when
its member named by `event.data.method` is a function, apply it to the
message's `args`.  Only the record's own `resolve`/`reject` members settle
the pending promise; the members inherited from `Object.prototype` are
functions too (so the early return is not taken) but settle nothing. -/
def proxyOnmessage (st : IndexedQueue) (r : RespData) :
    IndexedQueue × List (Nat × SettleAct) :=
  match keyOf r.uuid with
  | none => (st, [])
  | some u =>
    match st.items.find? (fun p => p.1 == u) with
    | none => (st, [])
    | some pc =>
      let st' := st.popKey u
      let mk := jsKey r.method
      let args := if isArrayLike r.args then toArgs r.args else []
      if mk = "resolve" then (st', [(pc.2, .fulfill (args.getD 0 .undefined))])
      else if mk = "reject" then (st', [(pc.2, .fail (args.getD 0 .undefined))])
      else (st', [])

/-- Sequential processing of a list of inbound responses, accumulating the
settlements in processing order. -/
def processResponses (st : IndexedQueue) (rs : List RespData) :
    IndexedQueue × List (Nat × SettleAct) :=
  rs.foldl (fun acc r =>
    let s := proxyOnmessage acc.1 r
    (s.1, acc.2 ++ s.2)) (st, [])

/-- The request a stand-in member built by `ServiceProxyClass.proxy` posts:
`{target: 'service', method, args}` with the freshly allocated `uuid`
merged in by `call`. -/
def standInRequest (m : String) (args : List JSVal) (u : Nat) : JSVal :=
  .obj [("target", .str "service"), ("method", .str m),
        ("args", .arr args), ("uuid", .num (u : ℚ))] .null

/-- The request `terminate()` posts through `call`:
`{method: 'onterminate'}` plus the allocated `uuid`; no `target`. -/
def terminateRequest (u : Nat) : JSVal :=
  .obj [("method", .str "onterminate"), ("uuid", .num (u : ℚ))] .null

/-- One full round trip of a stand-in method call: the caller allocates a
record for token `tok` and posts the request; the callee endpoint
dispatches it; the caller's matcher processes every posted response. -/
def roundTripCall (env : FunEnv) (fuel : Nat) (ws : WorkerService)
    (st : IndexedQueue) (tok : Nat) (m : String) (args : List JSVal) :
    IndexedQueue × List (Nat × SettleAct) :=
  let pushed := st.push tok
  processResponses pushed.2
    ((workerOnmessage env ws fuel (standInRequest m args pushed.1)).map Msg.toResp)

/-- One full round trip of the reserved `onterminate` call issued by
`terminate()`. -/
def terminateRun (env : FunEnv) (fuel : Nat) (ws : WorkerService)
    (st : IndexedQueue) (tok : Nat) : IndexedQueue × List (Nat × SettleAct) :=
  let pushed := st.push tok
  processResponses pushed.2
    ((workerOnmessage env ws fuel (terminateRequest pushed.1)).map Msg.toResp)

/-- Host-level actions of the caller endpoint other than settling promises. -/
inductive HostAction where
  | terminateWorker : HostAction

/-- `ServiceProxyClass.kill`: `this.worker.terminate()` — destroys the
worker unconditionally, exchanges no messages, and cannot fail. -/
def kill : List HostAction := [.terminateWorker]

/-- The tail of `ServiceProxyClass.terminate` after its `onterminate` call
settles: `.then(() => this.kill())` — on fulfillment run `kill` and fulfill
(with `undefined`); on failure skip `kill` and propagate the failure. -/
def terminateStep : SettleAct → List HostAction × Except JSVal Unit
  | .fulfill _ => (kill, .ok ())
  | .fail e => ([], .error e)

/-- The initial value of the static `ServiceProxyClass.timeout`:
`3 * 60 * 1000` ms. -/
def initialStaticTimeout : JSVal := .num (3 * 60 * 1000 : ℚ)

/-- The assignment in `newInstance`:
`ServiceProxyClass.timeout = opts && opts.timeout || ServiceProxyClass.timeout`. -/
def updateStaticTimeout (staticTimeout : JSVal) (opts : JSVal) : JSVal :=
  let t := if truthy opts then getField opts "timeout" else opts
  if truthy t then t else staticTimeout

/-- The per-call timeout selection in `call`:
`data.timeout || ServiceProxyClass.timeout`. -/
def effectiveTimeout (callTimeout : JSVal) (staticTimeout : JSVal) : JSVal :=
  if truthy callTimeout then callTimeout else staticTimeout

/-- The rejection value of bluebird's `Promise.TimeoutError`. -/
def timeoutErrorVal : JSVal :=
  errObj ⟨"TimeoutError", "operation timed out", ""⟩

/-- The `catch(Promise.TimeoutError, ...)` handler of `call`, run when the
call's timeout elapses before any settlement: pops the pending record and
fails the call's promise with the timeout error. -/
def timeoutFire (st : IndexedQueue) (u : Nat) (tok : Nat) :
    IndexedQueue × List (Nat × SettleAct) :=
  (st.popKey u, [(tok, .fail timeoutErrorVal)])

/-! Companion definitions used to state the claims. -/

/-- The own property names along a value's prototype chain, stopping before
the universal base object — the spec-side description of the names
`getPropertyNames` enumerates (before the `constructor` exclusion). -/
def chainOwnPropertyNames : JSVal → List String
  | .obj fields proto =>
    fields.map Prod.fst ++
      (if isObjectPrototype proto then [] else chainOwnPropertyNames proto)
  | _ => []

/-- An ordered sequence of strings — the spec-side reading of a valid
`methods` allow-list. -/
def isStringArray : JSVal → Bool
  | .arr l => l.all isString
  | _ => false

/-- The callable members of a `WorkerServiceClass` instance itself (its
internal API): the prototype methods, the ES5 `constructor`, the members
inherited from `Object.prototype`, and `onterminate` when the supplied
handler is callable. -/
def internalCallableNames (ws : WorkerService) : List String :=
  ["getServiceMethods", "resolve", "reject", "onmessage", "callTargetMethod",
   "constructor"] ++ objectProtoFnNames ++
  (if isFunction ws.onterminate then ["onterminate"] else [])

/-! Concrete fixtures, mirroring the repository's spec suite: a service
with callable members `syncwork`, `asyncwork`, `stop` on its prototype
chain, a worker with a `postMessage` member, and `onterminate` bound to the
service's `stop`. -/

/-- Stand-in for `Object.prototype` as a chain end: a plain object whose
prototype is `null` (its own host members are elided; the source never
enumerates them). -/
def objectProtoVal : JSVal := .obj [] .null

/-- A concrete service object with three callable members. -/
def cxServiceObj : JSVal :=
  .obj [("syncwork", .fn 0), ("asyncwork", .fn 1), ("stop", .fn 2)] objectProtoVal

/-- A concrete worker endpoint exposing `postMessage`. -/
def cxWorkerObj : JSVal := .obj [("postMessage", .fn 100)] .null

/-- A valid `ServiceBinderSpec` over the fixtures. -/
def cxSpec : JSVal :=
  .obj [("worker", cxWorkerObj), ("service", cxServiceObj), ("onterminate", .fn 2)] .null

/-- Behaviour of the fixture functions: `syncwork`/`asyncwork` return
`'foo'`, everything else returns `undefined`. -/
def cxEnv : FunEnv := fun id _ =>
  match id with
  | 0 => .ok (.str "foo")
  | 1 => .ok (.str "foo")
  | _ => .ok .undefined

/-- The callee-endpoint state `hookService cxSpec` builds. -/
def cxWS : WorkerService :=
  ⟨cxWorkerObj, cxServiceObj, .fn 2, ["syncwork", "asyncwork", "stop"]⟩

/-- A request whose `target` property is present (`false`) but not a
string: it passes `isValidWorkerServiceMethodCall` because the validator
tests truthiness (`!val.target`), not presence. -/
def c5data : JSVal :=
  .obj [("uuid", .num 42), ("target", .bool false),
        ("method", .str "getServiceMethods"), ("args", .arr [])] .null

/-- A well-formed request carrying an unrecognized `target` (`'shazam'`)
whose method names a callable member of the endpoint's internal API. -/
def c6data : JSVal :=
  .obj [("uuid", .num 7), ("target", .str "shazam"),
        ("method", .str "getServiceMethods"), ("args", .arr [])] .null

/-- A binder spec whose `onterminate` is present (`0`) but not callable:
it passes `isValidServiceBinderSpec` because the validator tests
truthiness (`!val.onterminate`), not presence. -/
def c8spec : JSVal :=
  .obj [("worker", cxWorkerObj), ("service", cxServiceObj), ("onterminate", .num 0)] .null

/-! Helper lemmas. -/

theorem isSafeInteger_natCast (u : Nat) (hu : u ≤ 2 ^ 53 - 1) :
    isSafeInteger (.num (u : ℚ)) = true := by
  simp only [isSafeInteger, Rat.den_natCast, Rat.num_natCast, Int.natAbs_ofNat]
  simp only [beq_self_eq_true, Bool.true_and, decide_eq_true_eq]
  omega

theorem keyOf_natCast (u : Nat) : keyOf (.num (u : ℚ)) = some u := by
  simp [keyOf, Rat.den_natCast, Rat.num_natCast]

theorem find?_eq_none_of_keys_lt (items : List (Nat × Nat)) (u : Nat)
    (h : ∀ p ∈ items, p.1 < u) :
    items.find? (fun p => p.1 == u) = none := by
  induction items with
  | nil => rfl
  | cons x xs ih =>
    have hx : (x.1 == u) = false := by
      have := h x (List.mem_cons_self x xs)
      simp [Nat.ne_of_lt this]
    have hxs := ih (fun p hp => h p (List.mem_cons_of_mem _ hp))
    simp [List.find?, hx, hxs]

theorem find?_append_fresh (items : List (Nat × Nat)) (u tok : Nat)
    (h : ∀ p ∈ items, p.1 < u) :
    (items ++ [(u, tok)]).find? (fun p => p.1 == u) = some (u, tok) := by
  induction items with
  | nil => simp [List.find?]
  | cons x xs ih =>
    have hx : (x.1 == u) = false := by
      have := h x (List.mem_cons_self x xs)
      simp [Nat.ne_of_lt this]
    have hxs := ih (fun p hp => h p (List.mem_cons_of_mem _ hp))
    simp [List.find?, hx, hxs]

theorem filter_eq_self_of_keys_lt (items : List (Nat × Nat)) (u : Nat)
    (h : ∀ p ∈ items, p.1 < u) :
    items.filter (fun p => p.1 != u) = items := by
  induction items with
  | nil => rfl
  | cons x xs ih =>
    have hx : (x.1 != u) = true := by
      have := h x (List.mem_cons_self x xs)
      simp [Nat.ne_of_lt this]
    have hxs := ih (fun p hp => h p (List.mem_cons_of_mem _ hp))
    simp [List.filter, hx, hxs]

theorem standIn_uuid (m : String) (A : List JSVal) (u : Nat) :
    getField (standInRequest m A u) "uuid" = .num (u : ℚ) := rfl

theorem standIn_valid (m : String) (A : List JSVal) (u : Nat) :
    isValidWorkerServiceMethodCall (standInRequest m A u) = true := rfl

theorem worker_dispatch_service (env : FunEnv) (fuel : Nat) (ws : WorkerService)
    (m : String) (A : List JSVal) (u : Nat) (i : Nat)
    (hu : u ≤ 2 ^ 53 - 1) (hsvc : isObject ws.service = true)
    (hm : ws.methods.contains m = true) (hf : getField ws.service m = .fn i) :
    workerOnmessage env ws (fuel + 1) (standInRequest m A u) =
      [outMsg (.num (u : ℚ)) (env i A)] := by
  have hsafe := isSafeInteger_natCast u hu
  simp only [workerOnmessage, callTargetMethod, standIn_uuid, standIn_valid, hsafe]
  simp only [show jsKey (getField (standInRequest m A u) "target") = "service" from rfl,
    show strOf (getField (standInRequest m A u) "method") = m from rfl,
    show toArgs (getField (standInRequest m A u) "args") = A from rfl,
    show instanceGet ws "service" = ws.service from rfl, hsvc, hm, hf]
  simp [invokeEnv]

theorem terminate_uuid (u : Nat) :
    getField (terminateRequest u) "uuid" = .num (u : ℚ) := rfl

theorem worker_dispatch_onterminate (env : FunEnv) (fuel : Nat) (ws : WorkerService)
    (u : Nat) (i : Nat) (hu : u ≤ 2 ^ 53 - 1) (ht : ws.onterminate = .fn i) :
    workerOnmessage env ws (fuel + 1) (terminateRequest u) =
      [outMsg (.num (u : ℚ)) (env i [])] := by
  have hsafe := isSafeInteger_natCast u hu
  simp only [workerOnmessage, callTargetMethod, terminate_uuid,
    show isValidWorkerServiceMethodCall (terminateRequest u) = true from rfl, hsafe]
  simp only [show jsKey (getField (terminateRequest u) "target") = "undefined" from rfl,
    show strOf (getField (terminateRequest u) "method") = "onterminate" from rfl,
    show toArgs (getField (terminateRequest u) "args") = ([] : List JSVal) from rfl,
    show instanceGet ws "undefined" = .undefined from rfl, ht]
  simp [invokeEnv, isObject, isFunction]

theorem proxyOnmessage_found (n u tok : Nat) (items : List (Nat × Nat))
    (h : ∀ p ∈ items, p.1 < u) (mv av : JSVal) :
    proxyOnmessage ⟨n, items ++ [(u, tok)]⟩ ⟨.num (u : ℚ), mv, av⟩ =
    (⟨n, items⟩,
     if jsKey mv = "resolve" then
       [(tok, .fulfill ((if isArrayLike av then toArgs av else []).getD 0 .undefined))]
     else if jsKey mv = "reject" then
       [(tok, .fail ((if isArrayLike av then toArgs av else []).getD 0 .undefined))]
     else []) := by
  have hfind := find?_append_fresh items u tok h
  have hfilter : (items ++ [(u, tok)]).filter (fun p => p.1 != u) = items := by
    rw [List.filter_append, filter_eq_self_of_keys_lt items u h]
    simp [List.filter]
  simp only [proxyOnmessage, keyOf_natCast, hfind, IndexedQueue.popKey, hfilter]
  split_ifs <;> rfl

theorem proxyOnmessage_absent (st : IndexedQueue) (r : RespData)
    (h : ∀ u, keyOf r.uuid = some u → st.items.find? (fun p => p.1 == u) = none) :
    proxyOnmessage st r = (st, []) := by
  unfold proxyOnmessage
  cases hk : keyOf r.uuid with
  | none => rfl
  | some u =>
    have hn := h u hk
    simp [hn]

theorem processResponses_singleton (st : IndexedQueue) (r : RespData) :
    processResponses st [r] = proxyOnmessage st r := by
  simp [processResponses]

theorem found_resolve (n u tok : Nat) (items : List (Nat × Nat))
    (h : ∀ p ∈ items, p.1 < u) (v : JSVal) :
    proxyOnmessage ⟨n, items ++ [(u, tok)]⟩ ⟨.num (u : ℚ), .str "resolve", .arr [v]⟩ =
    (⟨n, items⟩, [(tok, .fulfill v)]) := by
  rw [proxyOnmessage_found n u tok items h]
  simp [jsKey, isArrayLike, toArgs, isObject, isNumber, getField]

theorem found_reject (n u tok : Nat) (items : List (Nat × Nat))
    (h : ∀ p ∈ items, p.1 < u) (v : JSVal) :
    proxyOnmessage ⟨n, items ++ [(u, tok)]⟩ ⟨.num (u : ℚ), .str "reject", .arr [v]⟩ =
    (⟨n, items⟩, [(tok, .fail v)]) := by
  rw [proxyOnmessage_found n u tok items h]
  simp [jsKey, isArrayLike, isObject, isNumber, getField, toArgs]

/-- The first protocol action of the caller endpoint's constructor:
`this.call({method: 'getServiceMethods'})`, with the allocated `uuid`
merged in. -/
def getServiceMethodsRequest (u : Nat) : JSVal :=
  .obj [("method", .str "getServiceMethods"), ("uuid", .num (u : ℚ))] .null

theorem worker_dispatch_getServiceMethods (env : FunEnv) (fuel : Nat)
    (ws : WorkerService) (u : Nat) (hu : u ≤ 2 ^ 53 - 1) :
    workerOnmessage env ws (fuel + 1) (getServiceMethodsRequest u) =
      [⟨.num (u : ℚ), "resolve", [.arr (ws.methods.map .str)]⟩] := by
  have hsafe := isSafeInteger_natCast u hu
  simp only [workerOnmessage, callTargetMethod,
    show getField (getServiceMethodsRequest u) "uuid" = .num (u : ℚ) from rfl,
    show isValidWorkerServiceMethodCall (getServiceMethodsRequest u) = true from rfl, hsafe]
  simp only [show jsKey (getField (getServiceMethodsRequest u) "target") = "undefined" from rfl,
    show strOf (getField (getServiceMethodsRequest u) "method") = "getServiceMethods" from rfl,
    show instanceGet ws "undefined" = .undefined from rfl]
  simp [isObject, outMsg]

theorem callTargetMethod_service_unknown (env : FunEnv) (fuel : Nat)
    (ws : WorkerService) (data : JSVal)
    (huuid : isSafeInteger (getField data "uuid") = true)
    (hvalid : isValidWorkerServiceMethodCall data = true)
    (htk : jsKey (getField data "target") = "service")
    (hsvc : isObject ws.service = true)
    (hm : ws.methods.contains (strOf (getField data "method")) = false) :
    callTargetMethod env ws (fuel + 1) data = ([], .error unknownMethodError) := by
  have hm' : strOf (getField data "method") ∉ ws.methods := by simpa using hm
  unfold callTargetMethod
  simp only [huuid, hvalid, htk, Bool.not_true]
  simp [show instanceGet ws "service" = ws.service from rfl, hsvc, hm']

theorem callTargetMethod_internal_unknown (env : FunEnv) (fuel : Nat)
    (ws : WorkerService) (data : JSVal)
    (huuid : isSafeInteger (getField data "uuid") = true)
    (hvalid : isValidWorkerServiceMethodCall data = true)
    (hto : isObject (instanceGet ws (jsKey (getField data "target"))) = false)
    (hmem : strOf (getField data "method") ∉ internalCallableNames ws) :
    callTargetMethod env ws (fuel + 1) data = ([], .error unknownMethodError) := by
  set m := strOf (getField data "method") with hmdef
  have hng : m ≠ "getServiceMethods" := fun hh => hmem (by simp [internalCallableNames, hh])
  have hnr : m ≠ "resolve" := fun hh => hmem (by simp [internalCallableNames, hh])
  have hnj : m ≠ "reject" := fun hh => hmem (by simp [internalCallableNames, hh])
  have hnm : m ≠ "onmessage" := fun hh => hmem (by simp [internalCallableNames, hh])
  have hnc : m ≠ "callTargetMethod" := fun hh => hmem (by simp [internalCallableNames, hh])
  have hncon : m ≠ "constructor" := fun hh => hmem (by simp [internalCallableNames, hh])
  have hnp : m ∉ objectProtoFnNames := by
    intro hc
    exact hmem (by simp [internalCallableNames, hc])
  unfold callTargetMethod
  simp only [huuid, hvalid, hto, Bool.not_true]
  by_cases hot : m = "onterminate"
  · have hof : isFunction ws.onterminate = false := by
      by_cases hf : isFunction ws.onterminate = true
      · exact absurd (by simp [internalCallableNames, hot, hf]) hmem
      · simpa using hf
    simp [← hmdef, hng, hnr, hnj, hnm, hnc, hncon, hnp, hot, hof]
  · simp [← hmdef, hng, hnr, hnj, hnm, hnc, hncon, hnp, hot]

theorem mem_foldl_dedup (l acc : List String) (k : String) :
    k ∈ l.foldl (fun a x => if a.contains x then a else a ++ [x]) acc ↔
      k ∈ acc ∨ k ∈ l := by
  induction l generalizing acc with
  | nil => simp
  | cons x xs ih =>
    simp only [List.foldl]
    by_cases hc : acc.contains x
    · rw [if_pos hc, ih]
      have hx : x ∈ acc := by simpa using hc
      constructor
      · rintro (h | h)
        · exact Or.inl h
        · exact Or.inr (List.mem_cons_of_mem _ h)
      · rintro (h | h)
        · exact Or.inl h
        · rcases List.mem_cons.mp h with h | h
          · exact Or.inl (h ▸ hx)
          · exact Or.inr h
    · rw [if_neg hc, ih]
      simp [List.mem_append, or_assoc]

theorem mem_getPropertyNamesAux (acc : List String) (v : JSVal) (k : String)
    (l : List String) (h : getPropertyNamesAux acc v = .ok l) :
    k ∈ l ↔ k ∈ acc ∨ (k ∈ chainOwnPropertyNames v ∧ k ≠ "constructor") := by
  induction acc, v using getPropertyNamesAux.induct generalizing l with
  | case1 acc fields proto hp =>
    simp only [getPropertyNamesAux, hp, if_true, Except.ok.injEq] at h
    subst h
    simp only [chainOwnPropertyNames, hp, if_true]
    rw [mem_foldl_dedup]
    simp only [List.mem_filter, List.append_nil, decide_eq_true_eq]
    try tauto
  | case2 acc fields proto hp ih =>
    simp only [getPropertyNamesAux] at h
    rw [if_neg hp] at h
    simp only [chainOwnPropertyNames]
    rw [if_neg hp, ih l h, mem_foldl_dedup]
    simp only [List.mem_filter, List.mem_append, decide_eq_true_eq]
    try tauto
  | case3 acc =>
    simp [getPropertyNamesAux] at h
  | case4 acc =>
    simp [getPropertyNamesAux] at h
  | case5 v acc hne1 hne2 hne3 =>
    cases v
    case obj fields proto => exact absurd rfl (hne1 fields proto)
    case null => exact absurd rfl hne2
    case undefined => exact absurd rfl hne3
    all_goals
      simp only [getPropertyNamesAux, Except.ok.injEq] at h
      subst h
      simp [chainOwnPropertyNames]

theorem getPropertyNamesAux_isOk (acc : List String) (v : JSVal) :
    (getPropertyNamesAux acc v).isOk = protoChainReachesBase v := by
  induction acc, v using getPropertyNamesAux.induct with
  | case1 acc fields proto hp =>
    simp [getPropertyNamesAux, protoChainReachesBase, hp, Except.isOk, Except.toBool]
  | case2 acc fields proto hp ih =>
    simp only [getPropertyNamesAux, protoChainReachesBase]
    rw [if_neg hp, if_neg hp, ih]
  | case3 acc =>
    simp [getPropertyNamesAux, protoChainReachesBase, Except.isOk, Except.toBool]
  | case4 acc =>
    simp [getPropertyNamesAux, protoChainReachesBase, Except.isOk, Except.toBool]
  | case5 v acc hne1 hne2 hne3 =>
    cases v
    case obj fields proto => exact absurd rfl (hne1 fields proto)
    case null => exact absurd rfl hne2
    case undefined => exact absurd rfl hne3
    all_goals
      simp [getPropertyNamesAux, protoChainReachesBase, Except.isOk, Except.toBool]

theorem getPropertyNamesAux_error (acc : List String) (v : JSVal)
    (h : protoChainReachesBase v = false) :
    getPropertyNamesAux acc v = .error nullProtoEnumError := by
  induction acc, v using getPropertyNamesAux.induct with
  | case1 acc fields proto hp =>
    simp [protoChainReachesBase, hp] at h
  | case2 acc fields proto hp ih =>
    simp only [protoChainReachesBase] at h
    rw [if_neg hp] at h
    simp only [getPropertyNamesAux]
    rw [if_neg hp]
    exact ih h
  | case3 acc => rfl
  | case4 acc => rfl
  | case5 v acc hne1 hne2 hne3 =>
    cases v
    case obj fields proto => exact absurd rfl (hne1 fields proto)
    case null => exact absurd rfl hne2
    case undefined => exact absurd rfl hne3
    all_goals simp [protoChainReachesBase] at h

/-! Claim theorems. -/

/-- C1: invoking a method `m` of the Exposed Method Set on the caller's
stand-in with argument list `A` yields, once the callee's response for the
call is processed, exactly one settlement of the call's promise: fulfilled
with the value the service method returned (or resolved to), or failed
with one reconstructed error whose `name` and `message` equal those of the
error the method threw (or rejected with). -/
theorem c1_round_trip (env : FunEnv) (fuel : Nat) (ws : WorkerService)
    (st : IndexedQueue) (tok : Nat) (m : String) (A : List JSVal) (i : Nat)
    (v : JSVal) (e : ErrInfo)
    (hwf : st.wf) (hu : st.next ≤ 2 ^ 53 - 1)
    (hsvc : isObject ws.service = true)
    (hm : ws.methods.contains m = true)
    (hf : getField ws.service m = .fn i) :
    (env i A = .ok v →
       (roundTripCall env (fuel + 1) ws st tok m A).2 = [(tok, .fulfill v)]) ∧
    (env i A = .error e →
       (roundTripCall env (fuel + 1) ws st tok m A).2 = [(tok, .fail (errObj e))] ∧
       getField (errObj e) "name" = .str e.name ∧
       getField (errObj e) "message" = .str e.message) := by
  have hdisp := worker_dispatch_service env fuel ws m A st.next i hu hsvc hm hf
  constructor
  · intro henv
    simp only [roundTripCall, IndexedQueue.push, hdisp, henv, outMsg]
    simp only [List.map_cons, List.map_nil, Msg.toResp, processResponses_singleton]
    rw [found_resolve (st.next + 1) st.next tok st.items hwf v]
  · intro henv
    refine ⟨?_, rfl, rfl⟩
    simp only [roundTripCall, IndexedQueue.push, hdisp, henv, outMsg]
    simp only [List.map_cons, List.map_nil, Msg.toResp, processResponses_singleton]
    rw [found_reject (st.next + 1) st.next tok st.items hwf (errObj e)]

/-- Witness for C1 at the fixture service (`syncwork` returning `'foo'`). -/
theorem c1_round_trip_witness :
    (cxEnv 0 [.str "a"] = .ok (.str "foo") →
       (roundTripCall cxEnv 1 cxWS ⟨0, []⟩ 5 "syncwork" [.str "a"]).2 =
         [(5, .fulfill (.str "foo"))]) ∧
    (cxEnv 0 [.str "a"] = .error ⟨"Error", "boom", ""⟩ →
       (roundTripCall cxEnv 1 cxWS ⟨0, []⟩ 5 "syncwork" [.str "a"]).2 =
         [(5, .fail (errObj ⟨"Error", "boom", ""⟩))] ∧
       getField (errObj ⟨"Error", "boom", ""⟩) "name" = .str "Error" ∧
       getField (errObj ⟨"Error", "boom", ""⟩) "message" = .str "boom") :=
  c1_round_trip cxEnv 0 cxWS ⟨0, []⟩ 5 "syncwork" [.str "a"] 0 (.str "foo")
    ⟨"Error", "boom", ""⟩ (fun p hp => absurd hp (List.not_mem_nil p))
    (Nat.zero_le _) rfl rfl rfl

/-- C2: with two calls outstanding under distinct identifiers, processing
the response carrying the second identifier before the response carrying
the first settles each call's promise with the value from the response
carrying its own identifier — matching is by the `uuid` key, not arrival
order. -/
theorem c2_reverse_order_matching (st : IndexedQueue) (t1 t2 : Nat)
    (v1 v2 : JSVal) (hwf : st.wf) :
    (st.push t1).1 = st.next ∧ ((st.push t1).2.push t2).1 = st.next + 1 ∧
    processResponses ((st.push t1).2.push t2).2
      [⟨.num ((st.next + 1 : Nat) : ℚ), .str "resolve", .arr [v2]⟩,
       ⟨.num ((st.next : Nat) : ℚ), .str "resolve", .arr [v1]⟩] =
    (⟨st.next + 2, st.items⟩, [(t2, .fulfill v2), (t1, .fulfill v1)]) := by
  refine ⟨rfl, rfl, ?_⟩
  have h1 : ∀ p ∈ st.items ++ [(st.next, t1)], p.1 < st.next + 1 := by
    intro p hp
    rcases List.mem_append.mp hp with h | h
    · exact Nat.lt_succ_of_lt (hwf p h)
    · simp at h
      simp [h]
  have hfound2 := found_resolve (st.next + 1 + 1) (st.next + 1) t2
    (st.items ++ [(st.next, t1)]) h1 v2
  have hfound1 := found_resolve (st.next + 1 + 1) st.next t1 st.items hwf v1
  simp only [processResponses, List.foldl, IndexedQueue.push]
  rw [hfound2]
  simp only []
  rw [hfound1]
  simp

/-- Witness for C2 starting from the empty allocator. -/
theorem c2_reverse_order_matching_witness :
    ((⟨0, []⟩ : IndexedQueue).push 10).1 = 0 ∧
    (((⟨0, []⟩ : IndexedQueue).push 10).2.push 11).1 = 0 + 1 ∧
    processResponses (((⟨0, []⟩ : IndexedQueue).push 10).2.push 11).2
      [⟨.num ((0 + 1 : Nat) : ℚ), .str "resolve", .arr [.str "v2"]⟩,
       ⟨.num ((0 : Nat) : ℚ), .str "resolve", .arr [.str "v1"]⟩] =
    (⟨0 + 2, []⟩, [(11, .fulfill (.str "v2")), (10, .fulfill (.str "v1"))]) :=
  c2_reverse_order_matching ⟨0, []⟩ 10 11 (.str "v1") (.str "v2")
    (fun p hp => absurd hp (List.not_mem_nil p))

/-- C3: the caller's response matcher ignores a message (leaving all
pending-call state unchanged) when no record is stored under its `uuid`;
otherwise it removes the record, and when the message's `method` is
neither `'resolve'` nor `'reject'` it settles nothing, leaving the record
discarded. -/
theorem c3_matcher_ignores (st : IndexedQueue) (r : RespData) :
    ((∀ u, keyOf r.uuid = some u → st.hasKey u = false) →
       proxyOnmessage st r = (st, [])) ∧
    (∀ u, keyOf r.uuid = some u → st.hasKey u = true →
       jsKey r.method ≠ "resolve" → jsKey r.method ≠ "reject" →
       proxyOnmessage st r = (st.popKey u, [])) := by
  constructor
  · intro h
    apply proxyOnmessage_absent
    intro u hk
    have hh := h u hk
    unfold IndexedQueue.hasKey at hh
    cases hfind : st.items.find? (fun p => p.1 == u) with
    | none => rfl
    | some pc => rw [hfind] at hh; simp at hh
  · intro u hk hhas hm1 hm2
    unfold proxyOnmessage
    rw [hk]
    unfold IndexedQueue.hasKey at hhas
    cases hfind : st.items.find? (fun p => p.1 == u) with
    | none => rw [hfind] at hhas; simp at hhas
    | some pc =>
      simp only [hfind]
      simp [hm1, hm2]

/-- Witness for C3: a response with an unqueued identifier is ignored, and
a queued response with a malformed `method` discards its record without a
settlement. -/
theorem c3_matcher_ignores_witness :
    proxyOnmessage ⟨2, [(0, 10)]⟩ ⟨.num 1, .str "resolve", .arr []⟩ =
      (⟨2, [(0, 10)]⟩, []) ∧
    proxyOnmessage ⟨2, [(0, 10)]⟩ ⟨.num 0, .str "shazam", .arr []⟩ =
      ((⟨2, [(0, 10)]⟩ : IndexedQueue).popKey 0, []) := by
  constructor
  · exact (c3_matcher_ignores ⟨2, [(0, 10)]⟩ ⟨.num 1, .str "resolve", .arr []⟩).1
      (by intro u hk; simp [keyOf] at hk; simp [← hk, IndexedQueue.hasKey])
  · exact (c3_matcher_ignores ⟨2, [(0, 10)]⟩ ⟨.num 0, .str "shazam", .arr []⟩).2 0
      (by simp [keyOf]) (by simp [IndexedQueue.hasKey]) (by simp [jsKey]) (by simp [jsKey])

/-- C4: the per-call timeout defaults to 180 000 ms; when a call's timeout
fires (its response never having arrived) the pending record is removed and
the call's promise fails with the timeout error, and any response bearing
that identifier arriving afterwards is ignored without effect. -/
theorem c4_timeout_behavior (st : IndexedQueue) (tok : Nat) (hwf : st.wf) :
    initialStaticTimeout = .num (180000 : ℚ) ∧
    effectiveTimeout .undefined initialStaticTimeout = .num (180000 : ℚ) ∧
    timeoutFire (st.push tok).2 (st.push tok).1 tok =
      (⟨st.next + 1, st.items⟩, [(tok, .fail timeoutErrorVal)]) ∧
    (∀ r : RespData, keyOf r.uuid = some (st.push tok).1 →
       proxyOnmessage ⟨st.next + 1, st.items⟩ r = (⟨st.next + 1, st.items⟩, [])) := by
  refine ⟨by norm_num [initialStaticTimeout], ?_, ?_, ?_⟩
  · simp only [effectiveTimeout, truthy]
    norm_num [initialStaticTimeout]
  · simp only [IndexedQueue.push, timeoutFire, IndexedQueue.popKey]
    rw [List.filter_append, filter_eq_self_of_keys_lt st.items st.next hwf]
    simp [List.filter]
  · intro r hk
    simp only [IndexedQueue.push] at hk
    apply proxyOnmessage_absent
    intro u hu'
    have huu : u = st.next := by
      rw [hk] at hu'
      exact (Option.some.injEq _ _ ▸ hu').symm
    subst huu
    exact find?_eq_none_of_keys_lt st.items st.next (fun p hp => hwf p hp)

/-- Witness for C4 on the empty allocator. -/
theorem c4_timeout_behavior_witness :
    initialStaticTimeout = .num (180000 : ℚ) ∧
    effectiveTimeout .undefined initialStaticTimeout = .num (180000 : ℚ) ∧
    timeoutFire ((⟨0, []⟩ : IndexedQueue).push 7).2 ((⟨0, []⟩ : IndexedQueue).push 7).1 7 =
      (⟨1, []⟩, [(7, .fail timeoutErrorVal)]) ∧
    (∀ r : RespData, keyOf r.uuid = some ((⟨0, []⟩ : IndexedQueue).push 7).1 →
       proxyOnmessage ⟨1, []⟩ r = (⟨1, []⟩, [])) :=
  c4_timeout_behavior ⟨0, []⟩ 7 (fun p hp => absurd hp (List.not_mem_nil p))

/-- C5 counterexample: `c5data`'s `target` property is present (`false`)
but not a string, yet the callee endpoint does not post an
`invalid argument` reject — the validator tests truthiness, not presence,
so the request passes validation and the single posted response is a
`resolve`. -/
theorem c5_counterexample :
    getField c5data "target" = .bool false ∧
    isString (getField c5data "target") = false ∧
    workerOnmessage cxEnv cxWS 1 c5data =
      [⟨.num 42, "resolve", [.arr [.str "syncwork", .str "asyncwork", .str "stop"]]⟩] :=
  ⟨rfl, rfl, rfl⟩

/-- C5 (amended): for every inbound request whose `uuid` is not a safe
integer, or whose `method` is not a string, or whose `target` is truthy
and not a string, or whose `args` is truthy and not array-like, the callee
endpoint posts exactly one response with method `'reject'` and the error
descriptor `{name: 'TypeError', message: 'invalid argument'}`, carrying
the request's `uuid` unchanged. -/
theorem c5_amended_invalid_rejected (env : FunEnv) (fuel : Nat)
    (ws : WorkerService) (data : JSVal)
    (h : isSafeInteger (getField data "uuid") = false ∨
         isString (getField data "method") = false ∨
         (truthy (getField data "target") = true ∧
          isString (getField data "target") = false) ∨
         (truthy (getField data "args") = true ∧
          isArrayLike (getField data "args") = false)) :
    workerOnmessage env ws (fuel + 1) data =
      [⟨getField data "uuid", "reject", [errObj invalidArgumentError]⟩] := by
  unfold workerOnmessage callTargetMethod
  by_cases hs : isSafeInteger (getField data "uuid") = true
  · have hv : isValidWorkerServiceMethodCall data = false := by
      rcases h with h | h | ⟨h1, h2⟩ | ⟨h1, h2⟩
      · rw [h] at hs; exact absurd hs (by simp)
      · simp [isValidWorkerServiceMethodCall, h]
      · simp [isValidWorkerServiceMethodCall, h1, h2]
      · simp [isValidWorkerServiceMethodCall, h1, h2]
    simp [hs, hv, outMsg]
  · have hs' : isSafeInteger (getField data "uuid") = false := by simpa using hs
    simp [hs', outMsg]

/-- Witness for amended C5: the spec suite's non-string `target` request
(`target: 64`) draws one `invalid argument` reject echoing `uuid` 42. -/
theorem c5_amended_invalid_rejected_witness :
    workerOnmessage cxEnv cxWS 1
      (.obj [("uuid", .num 42), ("target", .num 64),
             ("method", .str "syncwork"), ("args", .arr [])] .null) =
      [⟨.num 42, "reject", [errObj invalidArgumentError]⟩] :=
  c5_amended_invalid_rejected cxEnv 0 cxWS
    (.obj [("uuid", .num 42), ("target", .num 64),
           ("method", .str "syncwork"), ("args", .arr [])] .null)
    (Or.inr (Or.inr (Or.inl ⟨by decide, rfl⟩)))

/-- A well-formed request with an unrecognized target and a method that is
not an internal callable member. -/
def c6bdata : JSVal :=
  .obj [("uuid", .num 9), ("target", .str "shazam"),
        ("method", .str "syncwork"), ("args", .arr [])] .null

/-- C6 counterexample: `c6data` is well-formed and carries the
unrecognized target `'shazam'`, but because dispatch falls back to the
endpoint itself its internal `getServiceMethods` member is invoked, so the
single posted response is a `resolve`, not an `unknown method` reject. -/
theorem c6_counterexample :
    isValidWorkerServiceMethodCall c6data = true ∧
    getField c6data "target" = .str "shazam" ∧
    instanceGet cxWS "shazam" = .undefined ∧
    workerOnmessage cxEnv cxWS 1 c6data =
      [⟨.num 7, "resolve", [.arr [.str "syncwork", .str "asyncwork", .str "stop"]]⟩] :=
  ⟨rfl, rfl, rfl, rfl⟩

/-- C6 (amended): for every well-formed inbound request that targets the
service and names a method outside the Exposed Method Set, or that carries
a target not resolving to an object-valued member and a method that is not
one of the endpoint's own callable members (unrecognized targets fall back
to internal dispatch), the callee endpoint posts exactly one response with
method `'reject'` and the descriptor `{name: 'Error', message: 'unknown
method'}`. -/
theorem c6_amended_unknown_rejected (env : FunEnv) (fuel : Nat)
    (ws : WorkerService) (data : JSVal)
    (huuid : isSafeInteger (getField data "uuid") = true)
    (hvalid : isValidWorkerServiceMethodCall data = true) :
    (jsKey (getField data "target") = "service" → isObject ws.service = true →
       ws.methods.contains (strOf (getField data "method")) = false →
       workerOnmessage env ws (fuel + 1) data =
         [⟨getField data "uuid", "reject", [errObj unknownMethodError]⟩]) ∧
    (isObject (instanceGet ws (jsKey (getField data "target"))) = false →
       strOf (getField data "method") ∉ internalCallableNames ws →
       workerOnmessage env ws (fuel + 1) data =
         [⟨getField data "uuid", "reject", [errObj unknownMethodError]⟩]) := by
  constructor
  · intro htk hsvc hm
    unfold workerOnmessage
    rw [callTargetMethod_service_unknown env fuel ws data huuid hvalid htk hsvc hm]
    rfl
  · intro hto hmem
    unfold workerOnmessage
    rw [callTargetMethod_internal_unknown env fuel ws data huuid hvalid hto hmem]
    rfl

/-- Witness for amended C6 at `c6bdata` (unknown target, method
`'syncwork'` which is not an internal member). -/
theorem c6_amended_unknown_rejected_witness :
    (jsKey (getField c6bdata "target") = "service" →
       isObject cxWS.service = true →
       cxWS.methods.contains (strOf (getField c6bdata "method")) = false →
       workerOnmessage cxEnv cxWS (0 + 1) c6bdata =
         [⟨getField c6bdata "uuid", "reject", [errObj unknownMethodError]⟩]) ∧
    (isObject (instanceGet cxWS (jsKey (getField c6bdata "target"))) = false →
       strOf (getField c6bdata "method") ∉ internalCallableNames cxWS →
       workerOnmessage cxEnv cxWS (0 + 1) c6bdata =
         [⟨getField c6bdata "uuid", "reject", [errObj unknownMethodError]⟩]) :=
  c6_amended_unknown_rejected cxEnv 0 cxWS c6bdata rfl rfl

/-- C7: the Exposed Method Set computed at setup is exactly the service's
own and inherited callable members, `constructor` and universal-base
members excluded, intersected with the allow-list when one is supplied; a
`getServiceMethods` request resolves to exactly this set; and a
service-targeted request is dispatched only when its method is in the set
(otherwise it draws the `unknown method` rejection). -/
theorem c7_exposed_method_set (spec : JSVal) (ws : WorkerService)
    (h : hookService spec = .ok ws) :
    (∀ m : String, m ∈ ws.methods ↔
       (m ∈ chainOwnPropertyNames (getField spec "service") ∧ m ≠ "constructor" ∧
        isFunction (getField (getField spec "service") m) = true ∧
        (truthy (getField spec "methods") = false ∨
         allowContains (getField spec "methods") m = true))) ∧
    (∀ env : FunEnv, ∀ fuel u : Nat, u ≤ 2 ^ 53 - 1 →
       workerOnmessage env ws (fuel + 1) (getServiceMethodsRequest u) =
         [⟨.num (u : ℚ), "resolve", [.arr (ws.methods.map .str)]⟩]) ∧
    (∀ env : FunEnv, ∀ fuel : Nat, ∀ data : JSVal,
       isSafeInteger (getField data "uuid") = true →
       isValidWorkerServiceMethodCall data = true →
       jsKey (getField data "target") = "service" →
       ws.methods.contains (strOf (getField data "method")) = false →
       callTargetMethod env ws (fuel + 1) data = ([], .error unknownMethodError)) := by
  have hv : isValidServiceBinderSpec spec = true := by
    by_cases hv : isValidServiceBinderSpec spec = true
    · exact hv
    · have hv' : isValidServiceBinderSpec spec = false := by simpa using hv
      simp [hookService, hv'] at h
  have hsvc : isObject (getField spec "service") = true := by
    simp only [isValidServiceBinderSpec, Bool.and_eq_true] at hv
    exact hv.1.1.2
  simp only [hookService, hv, Bool.not_true, Bool.false_eq_true, if_false] at h
  cases hnames : getPropertyNames (getField spec "service") with
  | error e => rw [hnames] at h; simp at h
  | ok names =>
    rw [hnames] at h
    simp only [Except.ok.injEq] at h
    have hws : ws = ⟨getField spec "worker", getField spec "service",
        getField spec "onterminate",
        (names.filter
          (fun m => isFunction (getField (getField spec "service") m))).filter
          (fun m => !truthy (getField spec "methods") ||
            allowContains (getField spec "methods") m)⟩ := h.symm
    have hmem := mem_getPropertyNamesAux [] (getField spec "service")
    have hnames' : getPropertyNamesAux [] (getField spec "service") = .ok names := hnames
    refine ⟨?_, ?_, ?_⟩
    · intro m
      rw [hws]
      simp only [List.mem_filter, hmem m names hnames',
        List.not_mem_nil, false_or, Bool.or_eq_true, Bool.not_eq_true']
      tauto
    · intro env fuel u hu
      exact worker_dispatch_getServiceMethods env fuel ws u hu
    · intro env fuel data huuid hvalid htk hm
      have hsvc' : isObject ws.service = true := by rw [hws]; exact hsvc
      exact callTargetMethod_service_unknown env fuel ws data huuid hvalid htk hsvc' hm

/-- Witness for C7 at the fixture spec. -/
theorem c7_exposed_method_set_witness :
    (∀ m : String, m ∈ cxWS.methods ↔
       (m ∈ chainOwnPropertyNames (getField cxSpec "service") ∧ m ≠ "constructor" ∧
        isFunction (getField (getField cxSpec "service") m) = true ∧
        (truthy (getField cxSpec "methods") = false ∨
         allowContains (getField cxSpec "methods") m = true))) ∧
    (∀ env : FunEnv, ∀ fuel u : Nat, u ≤ 2 ^ 53 - 1 →
       workerOnmessage env cxWS (fuel + 1) (getServiceMethodsRequest u) =
         [⟨.num (u : ℚ), "resolve", [.arr (cxWS.methods.map .str)]⟩]) ∧
    (∀ env : FunEnv, ∀ fuel : Nat, ∀ data : JSVal,
       isSafeInteger (getField data "uuid") = true →
       isValidWorkerServiceMethodCall data = true →
       jsKey (getField data "target") = "service" →
       cxWS.methods.contains (strOf (getField data "method")) = false →
       callTargetMethod env cxWS (fuel + 1) data = ([], .error unknownMethodError)) :=
  c7_exposed_method_set cxSpec cxWS rfl

/-- C8 counterexample: `c8spec`'s `onterminate` is present (`0`) and not
callable, yet `hookService` succeeds (installing the handler) instead of
throwing the `invalid argument` `TypeError` — the validator tests
truthiness, not presence. -/
theorem c8_counterexample :
    getField c8spec "onterminate" = .num 0 ∧
    isFunction (getField c8spec "onterminate") = false ∧
    hookService c8spec =
      .ok ⟨cxWorkerObj, cxServiceObj, .num 0, ["syncwork", "asyncwork", "stop"]⟩ :=
  ⟨rfl, rfl, rfl⟩

/-- A validated spec whose service is built on `Object.create(null)`: its
prototype chain reaches `null` directly, so setup's property enumeration
throws before any handler is installed. -/
def c8nullSpec : JSVal :=
  .obj [("worker", cxWorkerObj), ("service", .obj [("work", .fn 0)] .null)] .null

/-- C8 (amended): `hookService` fails synchronously with the
`invalid argument` `TypeError` — installing no handler — whenever the
spec's worker lacks a callable `postMessage`, or its service is absent or
not an object, or `onterminate` is truthy and not callable, or `methods`
is truthy and not an array of strings; for every spec passing the
validator whose service's prototype chain reaches the universal base
object it installs the handler without throwing; and for a validated
service whose chain reaches `null` directly, setup throws the host's
`TypeError` from property enumeration, likewise installing no handler. -/
theorem c8_amended_validation (spec : JSVal) :
    (isFunction (getField (getField spec "worker") "postMessage") = false →
       hookService spec = .error invalidArgumentError) ∧
    (isObject (getField spec "service") = false →
       hookService spec = .error invalidArgumentError) ∧
    (truthy (getField spec "onterminate") = true →
       isFunction (getField spec "onterminate") = false →
       hookService spec = .error invalidArgumentError) ∧
    (truthy (getField spec "methods") = true →
       isStringArray (getField spec "methods") = false →
       hookService spec = .error invalidArgumentError) ∧
    (isValidServiceBinderSpec spec = true →
       protoChainReachesBase (getField spec "service") = true →
       (hookService spec).isOk = true) ∧
    (isValidServiceBinderSpec spec = true →
       protoChainReachesBase (getField spec "service") = false →
       hookService spec = .error nullProtoEnumError) := by
  have hmo : ∀ v : JSVal, isValidMethodsOption v = (!truthy v || isStringArray v) := by
    intro v; cases v <;> rfl
  refine ⟨?_, ?_, ?_, ?_, ?_, ?_⟩
  · intro h
    have hv : isValidServiceBinderSpec spec = false := by
      simp [isValidServiceBinderSpec, isWorkerGlobalScope, h]
    simp [hookService, hv]
  · intro h
    have hv : isValidServiceBinderSpec spec = false := by
      simp [isValidServiceBinderSpec, h]
    simp [hookService, hv]
  · intro h1 h2
    have hv : isValidServiceBinderSpec spec = false := by
      simp [isValidServiceBinderSpec, h1, h2]
    simp [hookService, hv]
  · intro h1 h2
    have hv : isValidServiceBinderSpec spec = false := by
      simp [isValidServiceBinderSpec, hmo, h1, h2]
    simp [hookService, hv]
  · intro hv hchain
    have hok : (getPropertyNames (getField spec "service")).isOk = true := by
      rw [getPropertyNames, getPropertyNamesAux_isOk]
      exact hchain
    cases hnames : getPropertyNames (getField spec "service") with
    | error e => rw [hnames] at hok; simp [Except.isOk, Except.toBool] at hok
    | ok names => simp [hookService, hv, hnames, Except.isOk, Except.toBool]
  · intro hv hchain
    have herr : getPropertyNames (getField spec "service") = .error nullProtoEnumError :=
      getPropertyNamesAux_error [] _ hchain
    simp [hookService, hv, herr]

/-- Witness for amended C8: a spec with a non-callable truthy
`onterminate` (`42`, as in the repository's spec suite) is rejected, the
valid fixture spec is accepted, and the validated null-prototype service
spec crashes setup with the host `TypeError`. -/
theorem c8_amended_validation_witness :
    (truthy (getField (.obj [("worker", cxWorkerObj), ("service", cxServiceObj),
        ("onterminate", .num 42)] .null) "onterminate") = true →
     isFunction (getField (.obj [("worker", cxWorkerObj), ("service", cxServiceObj),
        ("onterminate", .num 42)] .null) "onterminate") = false →
     hookService (.obj [("worker", cxWorkerObj), ("service", cxServiceObj),
        ("onterminate", .num 42)] .null) = .error invalidArgumentError) ∧
    (isValidServiceBinderSpec cxSpec = true →
       protoChainReachesBase (getField cxSpec "service") = true →
       (hookService cxSpec).isOk = true) ∧
    (isValidServiceBinderSpec c8nullSpec = true →
       protoChainReachesBase (getField c8nullSpec "service") = false →
       hookService c8nullSpec = .error nullProtoEnumError) :=
  ⟨(c8_amended_validation (.obj [("worker", cxWorkerObj), ("service", cxServiceObj),
      ("onterminate", .num 42)] .null)).2.2.1,
   (c8_amended_validation cxSpec).2.2.2.2.1,
   (c8_amended_validation c8nullSpec).2.2.2.2.2⟩

/-- C9: `terminate()` issues the reserved `onterminate` call through the
normal call contract; if that call fulfills, the worker is destroyed and
`terminate()`'s promise fulfills, if it fails (timeout included) the
failure propagates and the worker is not destroyed; `kill()` destroys the
worker unconditionally, with no message exchange, and never fails. -/
theorem c9_terminate_kill (env : FunEnv) (fuel : Nat) (ws : WorkerService)
    (st : IndexedQueue) (tok i : Nat) (v : JSVal) (e : ErrInfo)
    (hwf : st.wf) (hu : st.next ≤ 2 ^ 53 - 1) (ht : ws.onterminate = .fn i) :
    (env i [] = .ok v →
       (terminateRun env (fuel + 1) ws st tok).2 = [(tok, .fulfill v)] ∧
       terminateStep (.fulfill v) = ([.terminateWorker], .ok ())) ∧
    (env i [] = .error e →
       (terminateRun env (fuel + 1) ws st tok).2 = [(tok, .fail (errObj e))] ∧
       terminateStep (.fail (errObj e)) = ([], .error (errObj e))) ∧
    terminateStep (.fail timeoutErrorVal) = ([], .error timeoutErrorVal) ∧
    kill = [.terminateWorker] := by
  have hdisp := worker_dispatch_onterminate env fuel ws st.next i hu ht
  refine ⟨?_, ?_, rfl, rfl⟩
  · intro henv
    refine ⟨?_, rfl⟩
    simp only [terminateRun, IndexedQueue.push, hdisp, henv, outMsg]
    simp only [List.map_cons, List.map_nil, Msg.toResp, processResponses_singleton]
    rw [found_resolve (st.next + 1) st.next tok st.items hwf v]
  · intro henv
    refine ⟨?_, rfl⟩
    simp only [terminateRun, IndexedQueue.push, hdisp, henv, outMsg]
    simp only [List.map_cons, List.map_nil, Msg.toResp, processResponses_singleton]
    rw [found_reject (st.next + 1) st.next tok st.items hwf (errObj e)]

/-- Witness for C9 at the fixture service (`onterminate` bound to `stop`,
which resolves to `undefined`). -/
theorem c9_terminate_kill_witness :
    (cxEnv 2 [] = .ok .undefined →
       (terminateRun cxEnv 1 cxWS ⟨0, []⟩ 3).2 = [(3, .fulfill .undefined)] ∧
       terminateStep (.fulfill .undefined) = ([.terminateWorker], .ok ())) ∧
    (cxEnv 2 [] = .error ⟨"Error", "halt", ""⟩ →
       (terminateRun cxEnv 1 cxWS ⟨0, []⟩ 3).2 =
         [(3, .fail (errObj ⟨"Error", "halt", ""⟩))] ∧
       terminateStep (.fail (errObj ⟨"Error", "halt", ""⟩)) =
         ([], .error (errObj ⟨"Error", "halt", ""⟩))) ∧
    terminateStep (.fail timeoutErrorVal) = ([], .error timeoutErrorVal) ∧
    kill = [.terminateWorker] :=
  c9_terminate_kill cxEnv 0 cxWS ⟨0, []⟩ 3 2 .undefined ⟨"Error", "halt", ""⟩
    (fun p hp => absurd hp (List.not_mem_nil p)) (Nat.zero_le _) rfl

/-- C10: the per-call default timeout lives in the class-level static:
constructing a proxy with a truthy `timeout` option overwrites the static
with that value, so a later construction without options still sees the
supplied value (not the 180 000 ms initial default), while a construction
without options leaves the static unchanged. -/
theorem c10_static_timeout (s : JSVal) (t : ℚ) (ht : t ≠ 0) :
    initialStaticTimeout = .num (180000 : ℚ) ∧
    updateStaticTimeout s (.obj [("timeout", .num t)] .null) = .num t ∧
    updateStaticTimeout (.num t) .undefined = .num t ∧
    effectiveTimeout .undefined (updateStaticTimeout s (.obj [("timeout", .num t)] .null)) =
      .num t := by
  have hup : updateStaticTimeout s (.obj [("timeout", .num t)] .null) = .num t := by
    simp [updateStaticTimeout, truthy, getField, ht]
  refine ⟨by norm_num [initialStaticTimeout], hup, ?_, ?_⟩
  · simp [updateStaticTimeout, truthy]
  · rw [hup]
    simp [effectiveTimeout, truthy]

/-- Witness for C10 with a 500 ms construction-time override. -/
theorem c10_static_timeout_witness :
    initialStaticTimeout = .num (180000 : ℚ) ∧
    updateStaticTimeout initialStaticTimeout (.obj [("timeout", .num 500)] .null) =
      .num 500 ∧
    updateStaticTimeout (.num 500) .undefined = .num 500 ∧
    effectiveTimeout .undefined
      (updateStaticTimeout initialStaticTimeout (.obj [("timeout", .num 500)] .null)) =
      .num 500 :=
  c10_static_timeout initialStaticTimeout 500 (by norm_num)

end WorkerProxy
